import Mathlib

/-!
Verification development for the `nipca` camera integration
(`custom_components/nipca/__init__.py`).

The Python module keeps two in-memory mappings (`self._attributes`,
`self._events`), both ordinary Python dicts with string keys and string
values.  We model a Python dict as an insertion-ordered association list
with distinct keys: assignment `d[k] = v` replaces the value in place when
the key is present and appends a new entry otherwise, exactly as CPython
dicts behave.  Network I/O is modelled by passing the response bodies
(lists of decoded lines) explicitly: a response oracle maps each URL
suffix (the device URL is a fixed format argument) to the decoded lines
of the body.
-/

set_option autoImplicit false

namespace Nipca

/-! ### Python dicts -/

/-- A Python dict with string keys, as an insertion-ordered association list. -/
abbrev Dict (α : Type) : Type := List (String × α)

/-- `d.get(k)`: the value stored under `k`, if any (first entry wins; dicts
built by `dictSet` have distinct keys, so there is at most one). -/
def dictGet {α : Type} : Dict α → String → Option α
  | [], _ => none
  | p :: rest, k => if p.1 = k then some p.2 else dictGet rest k

/-- `d[k] = v`: replace in place when `k` is present, else append. -/
def dictSet {α : Type} : Dict α → String → α → Dict α
  | [], k, v => [(k, v)]
  | p :: rest, k, v => if p.1 = k then (k, v) :: rest else p :: dictSet rest k v

/-- `d.update(e)`: assign every entry of `e` into `d`, in order. -/
def dictUpdate {α : Type} (d e : Dict α) : Dict α :=
  e.foldl (fun acc p => dictSet acc p.1 p.2) d

/-- The keys of a dict, in insertion order. -/
def keys {α : Type} (d : Dict α) : List String :=
  d.map (fun p => p.1)

/-- The value of the last entry for `k` in a plain entry list (which may
repeat keys), i.e. the survivor under "last write wins". -/
def lastValue {α : Type} : List (String × α) → String → Option α
  | [], _ => none
  | p :: rest, k =>
      match lastValue rest k with
      | some v => some v
      | none => if p.1 = k then some p.2 else none

/-- The first option when it is `some`, else the fallback. -/
def firstOr {α : Type} : Option α → Option α → Option α
  | some v, _ => some v
  | none, fallback => fallback

/-! ### Python string primitives

The Python code handles decoded HTTP lines with `str.strip`, `str.lower`,
`c in s` and `s.split('=', 1)`.  We model them on the character list of
the string. -/

/-- Python `s.strip()`: drop leading and trailing whitespace. -/
def pyStrip (s : String) : String :=
  String.mk (((s.toList.dropWhile Char.isWhitespace).reverse.dropWhile
    Char.isWhitespace).reverse)

/-- Python `c in s`. -/
def pyContains (s : String) (c : Char) : Bool :=
  s.toList.contains c

/-- Python `s.lower()` (on the ASCII keys this protocol produces). -/
def pyLower (s : String) : String :=
  String.mk (s.toList.map Char.toLower)

/-- Python `s.split(c, 1)` in the guarded case where `c` occurs in `s`:
the text before the first occurrence, and the full text after it. -/
def splitFirst (c : Char) (s : String) : String × String :=
  (String.mk (s.toList.takeWhile (fun a => a != c)),
   String.mk ((s.toList.dropWhile (fun a => a != c)).drop 1))

/-! ### `NipcaCameraDevice._nipca` — parsing a response body

Source (lines 209-217):
```
for l in req.iter_lines():
    if l:
        if '=' in l.decode().strip():
            k, v = l.decode().strip().split('=', 1)
            result[k.lower()] = v
        else:
            _LOGGER.debug(...)
return result
```
`lines` below is the list of decoded response lines, in order. -/

/-- One iteration of the `_nipca` line loop. -/
def parseStep (result : Dict String) (l : String) : Dict String :=
  if l ≠ "" then
    if pyContains (pyStrip l) '=' then
      dictSet result (pyLower (splitFirst '=' (pyStrip l)).1) (splitFirst '=' (pyStrip l)).2
    else result
  else result

/-- The mapping `_nipca` builds from the decoded lines of a successful
response body. -/
def nipcaParse (lines : List String) : Dict String :=
  lines.foldl parseStep []

/-- The entry a single response line contributes, if any: lines that are
empty or lack `'='` contribute nothing; otherwise the stripped line is
split at its first `'='`, the left part lowercased. -/
def lineEntry (l : String) : Option (String × String) :=
  if l ≠ "" ∧ pyContains (pyStrip l) '=' = true then
    some (pyLower (splitFirst '=' (pyStrip l)).1, (splitFirst '=' (pyStrip l)).2)
  else none

/-! ### The `try/except` around `requests.get` in `_nipca`

Source (lines 200-209):
```
result = {}
try:
    req = requests.get(url, ...)
except ConnectionError as err:
    _LOGGER.error("Nipca ConnectionError: %s", err)
for l in req.iter_lines():
    ...
```
On a network failure `requests.get` raises
`requests.exceptions.ConnectionError`, which subclasses `OSError` but not
the builtin `ConnectionError` named in the `except` clause, so it escapes
uncaught and unlogged.  If a builtin `ConnectionError` is raised instead,
it is caught and logged, but the local `req` was never assigned, so the
following `for l in req.iter_lines()` raises `UnboundLocalError`.  Either
way an exception propagates out of `_nipca`. -/

/-- The outcome of the `requests.get` call inside `_nipca`. -/
inductive ReqOutcome
  | ok (lines : List String)
  | requestsConnectionError
  | builtinConnectionError
deriving DecidableEq

/-- An exception escaping `_nipca`. -/
inductive PyException
  | requestsConnectionError
  | unboundLocalError
deriving DecidableEq

/-- `_nipca` (source lines 198-217) including its `try/except`: the result
is `(logged, outcome)` where `logged` records whether the
`except ConnectionError` arm ran `_LOGGER.error`, and the outcome is
either the returned mapping or the exception that escapes. -/
def nipcaFetch : ReqOutcome → Bool × Except PyException (Dict String)
  | .ok lines => (false, .ok (nipcaParse lines))
  | .requestsConnectionError => (false, .error .requestsConnectionError)
  | .builtinConnectionError => (true, .error .unboundLocalError)

/-! ### `NipcaCameraDevice` state, `update_info`, `motion_detection_enabled` -/

/-- URL suffix `NipcaCameraDevice.COMMON_INFO`. -/
def COMMON_INFO : String := "{}/common/info.cgi"

/-- URL suffix `NipcaCameraDevice.STREAM_INFO`. -/
def STREAM_INFO : String := "{}/config/stream_info.cgi"

/-- URL suffixes `NipcaCameraDevice.MOTION_INFO`, probed in order. -/
def MOTION_INFO : List String := ["{}/config/motion.cgi", "{}/motion.cgi"]

/-- The mutable state of a `NipcaCameraDevice` that the verified methods
touch: its URL, the two mappings, the committed motion-info URL
(`None` initially, later a suffix or the marker `'disabled'`), and the
notify-stream generator handle (`self.client`, an opaque identifier). -/
structure Device where
  url : String
  attributes : Dict String
  events : Dict String
  motion_info_url : Option String
  client : Option Nat
deriving DecidableEq

/-- The state `__init__` leaves behind (source lines 103-130). -/
def initDevice (url : String) : Device :=
  { url := url, attributes := [], events := [], motion_info_url := none,
    client := none }

/-- `motion_detection_enabled` (source lines 148-155). -/
def motion_detection_enabled (d : Device) : Bool :=
  if dictGet d.attributes "enable" = some "yes" then true
  else if dictGet d.attributes "motiondetectionenable" = some "1" then true
  else false

/-- The `for url in self.MOTION_INFO: ... else:` probe inside
`update_info` (source lines 187-194): commit the first suffix whose
parsed response is non-empty, merging its entries; the `for`-`else` arm
marks motion info `'disabled'` when every probe came back empty. -/
def probeMotion (resp : String → List String) (attrs : Dict String) :
    List String → Dict String × String
  | [] => (attrs, "disabled")
  | u :: rest =>
      let a := nipcaParse (resp u)
      if a ≠ [] then (dictUpdate attrs a, u)
      else probeMotion resp attrs rest

/-- `update_info` (source lines 183-196).  `resp` maps each URL suffix to
the decoded lines of its response body.  (`if not self.motion_info_url:`
tests for `None`: the stored values are only `None`, a suffix, or
`'disabled'`, all of which are truthy strings once set.) -/
def update_info (resp : String → List String) (d : Device) : Device :=
  let attrs1 := dictUpdate d.attributes (nipcaParse (resp COMMON_INFO))
  let attrs2 := dictUpdate attrs1 (nipcaParse (resp STREAM_INFO))
  match d.motion_info_url with
  | none =>
      let pr := probeMotion resp attrs2 MOTION_INFO
      { d with attributes := pr.1, motion_info_url := some pr.2 }
  | some u =>
      if u ≠ "disabled" then
        { d with attributes := dictUpdate attrs2 (nipcaParse (resp u)) }
      else
        { d with attributes := attrs2 }

/-- The attribute mapping after the common-info and stream-info merges at
the top of `update_info`. -/
def baseAttrs (resp : String → List String) (d : Device) : Dict String :=
  dictUpdate (dictUpdate d.attributes (nipcaParse (resp COMMON_INFO)))
    (nipcaParse (resp STREAM_INFO))

/-! ### `from_url` and the `hass.data` cache -/

/-- `hass.data`, restricted to the `'nipca.*'` entries this module manages. -/
structure Hass where
  data : Dict Device
deriving DecidableEq

/-- `DATA_NIPCA.format(url)`, i.e. `'nipca.{}'.format(url)`. -/
def dataName (url : String) : String := "nipca." ++ url

/-- `from_url` (source lines 93-101): return the cached device for `url`;
on a cache miss construct one, run `update_info` once and cache it.
(`if not device:` tests for `None`; device objects are truthy.) -/
def from_url (resp : String → List String) (h : Hass) (url : String) :
    Hass × Device :=
  match dictGet h.data (dataName url) with
  | some d => (h, d)
  | none =>
      let d := update_info resp (initDevice url)
      (⟨dictSet h.data (dataName url) d⟩, d)

/-! ### `manual_update_sensors` and the notify-stream line handler -/

/-- The state `manual_update_sensors` and `_notify_listener` touch besides
the device: the events mapping (`self._events`), the coordinator's
published `data`, and the listener callbacks already invoked (as the list
of their indices, in call order; the number of registered callbacks is a
parameter).  The coordinator object itself is created by the sensor
platform outside this module. -/
structure ListenCtx where
  events : Dict String
  coordData : Dict String
  fired : List Nat
deriving DecidableEq

/-- `manual_update_sensors` (source lines 222-229): store every pair of
`data` into `_events`, publish `_events` as `coordinator.data`, then
invoke each registered listener callback once, in order. -/
def manual_update_sensors (nListeners : Nat) (ctx : ListenCtx)
    (data : Dict String) : ListenCtx :=
  let ev := dictUpdate ctx.events data
  { events := ev, coordData := ev, fired := ctx.fired ++ List.range nListeners }

/-- The handling of one line read from the notify stream
(source lines 274-283 of `_notify_listener`). -/
def processLine (nListeners : Nat) (ctx : ListenCtx) (raw : String) : ListenCtx :=
  let line := pyStrip raw
  if line ≠ "" then
    if pyContains line '=' then
      let kv := splitFirst '=' line
      if kv.2 = "yes" ∨ kv.2 = "no" then
        manual_update_sensors nListeners ctx (dictSet [] kv.1 kv.2)
      else
        { ctx with events := dictSet ctx.events kv.1 kv.2 }
    else ctx
  else ctx

/-! ### `update_motion_sensors` -/

/-- The five exception classes the `try` in `update_motion_sensors`
catches (source lines 240-256). -/
inductive CaughtError
  | typeError
  | timeoutError
  | clientError
  | runtimeError
  | stopAsyncIteration
deriving DecidableEq

/-- The outcome of `await self.client.__anext__()` under
`async_timeout.timeout(10, ...)`: either the listener advanced one
iteration, leaving the events mapping in state `events`, or one of the
handled exception classes was raised. -/
inductive AdvanceResult
  | yielded (events : Dict String)
  | raised (e : CaughtError)
deriving DecidableEq

/-- `update_motion_sensors` (source lines 231-258): start a listener when
motion detection is enabled and none is connected, advance it, handle the
five exception classes, and return `self._events`.  The result is the
final device state, the log messages emitted, and the returned mapping.
`freshClient` is the identity of the generator a
`self._notify_listener()` call creates. -/
def update_motion_sensors (d : Device) (freshClient : Nat)
    (adv : AdvanceResult) : Device × List String × Dict String :=
  let d1 := if motion_detection_enabled d && d.client.isNone then
              { d with client := some freshClient }
            else d
  match d1.client with
  | none => (d1, [], d1.events)
  | some _ =>
      match adv with
      | .yielded ev =>
          let d2 := { d1 with events := ev }
          (d2, [], d2.events)
      | .raised e =>
          match e with
          | .typeError => (d1, ["Nipca TypeError"], d1.events)
          | .timeoutError =>
              let d2 := { d1 with client := none }
              (d2, ["Nipca TimeoutError: Timeout getting status info"], d2.events)
          | .clientError =>
              let d2 := { d1 with client := none }
              (d2, ["Nipca ClientError"], d2.events)
          | .runtimeError => (d1, ["Nipca RuntimeError"], d1.events)
          | .stopAsyncIteration =>
              let d2 := { d1 with client := none }
              (d2, ["Nipca StopAsyncIteration: Possibly camera error"], d2.events)

/-! ### The `_notify_listener` outer loop

Source (lines 265-284):
```
cycles = 30/self.coordinator.update_interval.total_seconds()
cleaned_buffer_count = 0
while cleaned_buffer_count < cycles:
    if len(response.content._buffer) == 0:
        cleaned_buffer_count += 1
    else:
        cleaned_buffer_count = 0
    while len(response.content._buffer) > 0:
        ... read and process lines ...
    yield
```
Each outer iteration observes whether the response buffer was empty; we
model the sequence of those observations as an input list of booleans
(`true` = empty).  The float `30/interval` is modelled as the exact
rational: the counter takes small integer values and `30/n` for a
positive number of seconds `n` is never close enough to an integer for
the float rounding to move the comparison. -/

/-- The counter update of one outer iteration. -/
def stepCount (emptyBuffer : Bool) (count : Nat) : Nat :=
  if emptyBuffer then count + 1 else 0

/-- The counter after a run of iterations, starting from `c`. -/
def countFrom (c : Nat) (l : List Bool) : Nat :=
  l.foldl (fun a b => stepCount b a) c

/-- The `while cleaned_buffer_count < cycles` loop: `some n` when the loop
exits after `n` iterations (after which the generator returns, so the
next `__anext__` raises `StopAsyncIteration`); `none` when the supplied
observations end before the loop does. -/
def notifyLoop (cycles : ℚ) : Nat → List Bool → Option Nat
  | count, [] => if cycles ≤ (count : ℚ) then some 0 else none
  | count, b :: rest =>
      if cycles ≤ (count : ℚ) then some 0
      else (notifyLoop cycles (stepCount b count) rest).map (fun n => n + 1)

/-- `30 / self.coordinator.update_interval.total_seconds()`. -/
def cyclesFor (intervalSeconds : ℚ) : ℚ := 30 / intervalSeconds

/-- The number of consecutive most-recent iterations that observed an
empty buffer: the length of the run of `true` at the end of the list. -/
def trailingRun (l : List Bool) : Nat :=
  (l.reverse.takeWhile (fun b => b)).length

/-! ## Theorems -/

/-! ### Basic dict lemmas -/

theorem dictGet_dictSet {α : Type} (d : Dict α) (k : String) (v : α) (k2 : String) :
    dictGet (dictSet d k v) k2 = if k = k2 then some v else dictGet d k2 := by
  induction d with
  | nil => simp [dictSet, dictGet]
  | cons p rest ih =>
    by_cases h : p.1 = k
    · subst h
      by_cases h2 : p.1 = k2 <;> simp [dictSet, dictGet, h2]
    · by_cases h2 : p.1 = k2
      · subst h2
        have h3 : ¬ k = p.1 := fun hh => h hh.symm
        simp [dictSet, dictGet, h, h3]
      · simp [dictSet, dictGet, h, h2, ih]

theorem mem_keys_dictSet {α : Type} (d : Dict α) (k : String) (v : α) (k2 : String) :
    k2 ∈ keys (dictSet d k v) ↔ k2 = k ∨ k2 ∈ keys d := by
  induction d with
  | nil => simp [dictSet, keys]
  | cons p rest ih =>
    by_cases h : p.1 = k
    · subst h
      have hset : dictSet (p :: rest) p.1 v = (p.1, v) :: rest := by simp [dictSet]
      rw [hset]
      simp only [keys, List.map_cons, List.mem_cons]
      tauto
    · simp only [dictSet, h, if_neg, ite_false]
      simp only [keys, List.map_cons, List.mem_cons] at ih ⊢
      rw [ih]
      tauto

theorem nodup_keys_dictSet {α : Type} (d : Dict α) (k : String) (v : α)
    (hd : (keys d).Nodup) : (keys (dictSet d k v)).Nodup := by
  induction d with
  | nil => simp [dictSet, keys]
  | cons p rest ih =>
    simp only [keys, List.map_cons, List.nodup_cons] at hd
    by_cases h : p.1 = k
    · subst h
      have hset : dictSet (p :: rest) p.1 v = (p.1, v) :: rest := by simp [dictSet]
      rw [hset]
      simp only [keys, List.map_cons, List.nodup_cons]
      exact hd
    · simp only [dictSet, h, ite_false]
      simp only [keys, List.map_cons, List.nodup_cons]
      refine ⟨?_, ih hd.2⟩
      intro hmem
      rcases (mem_keys_dictSet rest k v p.1).mp hmem with h1 | h1
      · exact h h1
      · exact hd.1 h1

/-- Fundamental fold lemma: assigning a list of entries in order realises
"last write wins" on top of the starting dict. -/
theorem dictGet_dictUpdate {α : Type} (e : List (String × α)) (d : Dict α) (k : String) :
    dictGet (dictUpdate d e) k = firstOr (lastValue e k) (dictGet d k) := by
  induction e generalizing d with
  | nil => simp [dictUpdate, lastValue, firstOr]
  | cons p rest ih =>
    simp only [dictUpdate, List.foldl_cons] at *
    rw [ih (dictSet d p.1 p.2)]
    rcases hlast : lastValue rest k with _ | v
    · simp only [lastValue, hlast, firstOr, dictGet_dictSet]
      by_cases h : p.1 = k <;> simp [h, firstOr]
    · simp [lastValue, hlast, firstOr]

theorem mem_keys_dictUpdate {α : Type} (e : List (String × α)) (d : Dict α) (k : String) :
    k ∈ keys (dictUpdate d e) ↔ k ∈ keys d ∨ k ∈ e.map (fun p => p.1) := by
  induction e generalizing d with
  | nil => simp [dictUpdate]
  | cons p rest ih =>
    simp only [dictUpdate, List.foldl_cons] at *
    rw [ih (dictSet d p.1 p.2), mem_keys_dictSet]
    simp only [List.map_cons, List.mem_cons]
    tauto

theorem nodup_keys_dictUpdate {α : Type} (e : List (String × α)) (d : Dict α)
    (hd : (keys d).Nodup) : (keys (dictUpdate d e)).Nodup := by
  induction e generalizing d with
  | nil => simpa [dictUpdate] using hd
  | cons p rest ih =>
    simp only [dictUpdate, List.foldl_cons] at *
    exact ih _ (nodup_keys_dictSet d p.1 p.2 hd)

/-! ### Parser lemmas -/

theorem parseStep_eq_lineEntry (result : Dict String) (l : String) :
    parseStep result l =
      match lineEntry l with
      | some p => dictSet result p.1 p.2
      | none => result := by
  by_cases h1 : l = ""
  · simp [parseStep, lineEntry, h1]
  · by_cases h2 : pyContains (pyStrip l) '=' = true
    · simp [parseStep, lineEntry, h1, h2]
    · simp [parseStep, lineEntry, h1, h2]

theorem foldl_parseStep (lines : List String) (d : Dict String) :
    lines.foldl parseStep d = dictUpdate d (lines.filterMap lineEntry) := by
  induction lines generalizing d with
  | nil => simp [dictUpdate]
  | cons l rest ih =>
    rw [List.foldl_cons, ih (parseStep d l), List.filterMap_cons,
      parseStep_eq_lineEntry]
    rcases h : lineEntry l with _ | p
    · simp [h]
    · simp [h, dictUpdate]

theorem nipcaParse_eq_update (lines : List String) :
    nipcaParse lines = dictUpdate [] (lines.filterMap lineEntry) :=
  foldl_parseStep lines []

/-- The events mapping after a sequence of singleton `manual_update_sensors`
calls is the fold of the single-key assignments. -/
theorem events_foldl_manual (nListeners : Nat) (ctx : ListenCtx)
    (writes : List (String × String)) :
    (writes.foldl
        (fun c p => manual_update_sensors nListeners c (dictSet [] p.1 p.2)) ctx).events
      = dictUpdate ctx.events writes := by
  induction writes generalizing ctx with
  | nil => simp [dictUpdate]
  | cons p rest ih =>
    rw [List.foldl_cons, ih]
    simp [manual_update_sensors, dictUpdate, dictSet]

/-! ### Claim theorems -/

/-- Claim C1, counterexample: two non-empty lines containing `'='` that
share a key yield a single entry, not one entry per such line: the body
`a=1`, `a=2` has two qualifying lines but the returned mapping has one
entry, the later line having overwritten the earlier one. -/
theorem c1_counterexample :
    (["a=1", "a=2"].filter
        (fun l => (l != "") && pyContains (pyStrip l) '=')).length = 2 ∧
    (nipcaParse ["a=1", "a=2"]).length = 1 ∧
    nipcaParse ["a=1", "a=2"] = [("a", "2")] := by
  decide

/-- Claim C1 (amended): the mapping `_nipca` returns has exactly one entry
per distinct key contributed by the non-empty lines containing `'='`
(the key is the text of the stripped line before its first `'='`,
lowercased); the stored value is the text after the first `'='` of the
last such line with that key; non-empty lines without `'='` and empty
lines contribute no entry and do not alter the result. -/
theorem c1_parse_characterisation (lines : List String) (k : String) :
    dictGet (nipcaParse lines) k = lastValue (lines.filterMap lineEntry) k ∧
    (keys (nipcaParse lines)).Nodup ∧
    (k ∈ keys (nipcaParse lines) ↔ ∃ l ∈ lines, ∃ v, lineEntry l = some (k, v)) := by
  refine ⟨?_, ?_, ?_⟩
  · rw [nipcaParse_eq_update, dictGet_dictUpdate]
    rcases lastValue (lines.filterMap lineEntry) k with _ | v <;> simp [dictGet, firstOr]
  · rw [nipcaParse_eq_update]
    exact nodup_keys_dictUpdate _ _ (by simp [keys])
  · rw [nipcaParse_eq_update, mem_keys_dictUpdate]
    simp only [keys, List.map_nil, List.not_mem_nil, false_or, List.mem_map,
      List.mem_filterMap]
    constructor
    · rintro ⟨⟨p1, p2⟩, ⟨l, hl, he⟩, hk⟩
      simp only at hk
      subst hk
      exact ⟨l, hl, p2, he⟩
    · rintro ⟨l, hl, v, he⟩
      exact ⟨(k, v), ⟨l, hl, he⟩, rfl⟩

/-- Claim C3: on a connection failure `_nipca` does not return a mapping.
A `requests` connection error escapes uncaught and unlogged (the `except`
clause names the builtin `ConnectionError`, which
`requests.exceptions.ConnectionError` does not subclass); even a caught
builtin `ConnectionError` is logged but then the read of the
never-assigned local `req` raises `UnboundLocalError`.  Only a
successful request yields a mapping. -/
theorem c3_connection_error_raises :
    nipcaFetch ReqOutcome.requestsConnectionError =
      (false, Except.error PyException.requestsConnectionError) ∧
    nipcaFetch ReqOutcome.builtinConnectionError =
      (true, Except.error PyException.unboundLocalError) ∧
    (∀ lines, nipcaFetch (ReqOutcome.ok lines) = (false, Except.ok (nipcaParse lines))) :=
  ⟨rfl, rfl, fun _ => rfl⟩

/-- Claim C2, counterexample: with a listener connected, a caught
`TypeError` is logged but the connection handle `self.client` is not
cleared, contradicting "this holds for every caught error class". -/
theorem c2_counterexample :
    (update_motion_sensors
      { url := "http://cam", attributes := [("enable", "yes")], events := [],
        motion_info_url := none, client := some 0 } 1
      (AdvanceResult.raised CaughtError.typeError)).1.client = some 0 ∧
    (update_motion_sensors
      { url := "http://cam", attributes := [("enable", "yes")], events := [],
        motion_info_url := none, client := some 0 } 1
      (AdvanceResult.raised CaughtError.typeError)).2.1 = ["Nipca TypeError"] := by
  decide

/-- Claim C2 (amended): every caught error is logged; the connection
handle `self.client` is cleared exactly for `asyncio.TimeoutError`,
`aiohttp.ClientError` and `StopAsyncIteration`, while a caught
`TypeError` or `RuntimeError` is only logged; no other recovery action is
taken (the rest of the device state is unchanged). -/
theorem c2_catch_handling (d : Device) (fresh : Nat) (e : CaughtError)
    (h : d.client ≠ none ∨ motion_detection_enabled d = true) :
    (update_motion_sensors d fresh (AdvanceResult.raised e)).2.1 ≠ [] ∧
    ((update_motion_sensors d fresh (AdvanceResult.raised e)).1.client = none ↔
      (e = CaughtError.timeoutError ∨ e = CaughtError.clientError ∨
       e = CaughtError.stopAsyncIteration)) ∧
    (update_motion_sensors d fresh (AdvanceResult.raised e)).1.events = d.events ∧
    (update_motion_sensors d fresh (AdvanceResult.raised e)).1.attributes = d.attributes ∧
    (update_motion_sensors d fresh (AdvanceResult.raised e)).1.motion_info_url
      = d.motion_info_url ∧
    (update_motion_sensors d fresh (AdvanceResult.raised e)).1.url = d.url := by
  rcases hcl : d.client with _ | c
  · rcases h with h | h
    · exact absurd hcl h
    · cases e <;> simp [update_motion_sensors, hcl, h]
  · cases hm : motion_detection_enabled d <;> cases e <;>
      simp [update_motion_sensors, hcl, hm]

/-- Witness for the amended C2 at a concrete caught `ClientError`. -/
theorem c2_catch_handling_witness :
    (update_motion_sensors
      { url := "u", attributes := [], events := [], motion_info_url := none,
        client := some 3 } 1
      (AdvanceResult.raised CaughtError.clientError)).1.client = none :=
  ((c2_catch_handling
      { url := "u", attributes := [], events := [], motion_info_url := none,
        client := some 3 } 1 CaughtError.clientError
      (Or.inl (by decide))).2.1).mpr (Or.inr (Or.inl rfl))

/-- Claim C7: every call to `update_motion_sensors` returns the in-memory
events mapping, and when an error is caught during the advance the events
mapping is unchanged by the error handling. -/
theorem c7_update_motion_sensors_events (d : Device) (fresh : Nat)
    (adv : AdvanceResult) (e : CaughtError) :
    (update_motion_sensors d fresh adv).2.2
      = (update_motion_sensors d fresh adv).1.events ∧
    (update_motion_sensors d fresh (AdvanceResult.raised e)).1.events = d.events := by
  constructor
  · rcases adv with ev | err
    · rcases hcl : d.client with _ | c <;>
        cases hm : motion_detection_enabled d <;>
        simp [update_motion_sensors, hcl, hm]
    · rcases hcl : d.client with _ | c <;>
        cases hm : motion_detection_enabled d <;>
        cases err <;> simp [update_motion_sensors, hcl, hm]
  · rcases hcl : d.client with _ | c <;>
      cases hm : motion_detection_enabled d <;>
      cases e <;> simp [update_motion_sensors, hcl, hm]

/-- Claim C6: the attribute and events mappings accept any string key and
any string value, and a sequence of writes to the same key stores the
value of the last write, both for `_nipca`-driven attribute updates
(`self._attributes.update(...)`) and for event-stream updates
(repeated `manual_update_sensors` calls). -/
theorem c6_last_write_wins (d : Dict String) (writes : List (String × String))
    (nListeners : Nat) (ctx : ListenCtx) (k : String) :
    dictGet (dictUpdate d writes) k = firstOr (lastValue writes k) (dictGet d k) ∧
    dictGet (writes.foldl
        (fun c p => manual_update_sensors nListeners c (dictSet [] p.1 p.2)) ctx).events k
      = firstOr (lastValue writes k) (dictGet ctx.events k) := by
  refine ⟨dictGet_dictUpdate writes d k, ?_⟩
  rw [events_foldl_manual]
  exact dictGet_dictUpdate writes ctx.events k

/-- Claim C5: for a non-empty notify-stream line containing `'='`, the
listener splits it at the first `'='` into `k` and `v`; when `v` is
exactly `'yes'` or `'no'` it calls `manual_update_sensors` with `{k: v}`,
which stores the pair in the events mapping, publishes the events mapping
as `coordinator.data`, and invokes every registered listener callback
once; for any other `v` it stores `v` under `k` in the events mapping
without notifying listeners. -/
theorem c5_notify_line (nListeners : Nat) (ctx : ListenCtx) (raw : String)
    (h1 : pyStrip raw ≠ "") (h2 : pyContains (pyStrip raw) '=' = true) :
    (((splitFirst '=' (pyStrip raw)).2 = "yes" ∨ (splitFirst '=' (pyStrip raw)).2 = "no") →
      processLine nListeners ctx raw =
        { events := dictSet ctx.events (splitFirst '=' (pyStrip raw)).1
            (splitFirst '=' (pyStrip raw)).2,
          coordData := dictSet ctx.events (splitFirst '=' (pyStrip raw)).1
            (splitFirst '=' (pyStrip raw)).2,
          fired := ctx.fired ++ List.range nListeners }) ∧
    (¬ ((splitFirst '=' (pyStrip raw)).2 = "yes" ∨ (splitFirst '=' (pyStrip raw)).2 = "no") →
      processLine nListeners ctx raw =
        { ctx with
            events := dictSet ctx.events (splitFirst '=' (pyStrip raw)).1
              (splitFirst '=' (pyStrip raw)).2 }) := by
  constructor <;> intro hv
  · simp only [processLine, if_pos h1, h2, if_true, if_pos hv]
    simp [manual_update_sensors, dictUpdate, dictSet]
  · simp only [processLine, if_pos h1, h2, if_true, if_neg hv]

/-- Witness for C5 at the concrete line `"md1=yes"` with two listeners. -/
theorem c5_notify_line_witness :
    processLine 2 { events := [], coordData := [], fired := [] } "md1=yes" =
      { events := [("md1", "yes")], coordData := [("md1", "yes")], fired := [0, 1] } :=
  ((c5_notify_line 2 { events := [], coordData := [], fired := [] } "md1=yes"
      (by decide) (by decide)).1 (by decide)).trans (by decide)

/-- Claim C8: `from_url` is idempotent per URL: a first call (cache miss)
constructs the device, runs `update_info` once and caches the result
under `'nipca.{url}'` in `hass.data`; any later call with the same URL
returns the cached device unchanged — even under different responses,
since `update_info` is not re-run. -/
theorem c8_from_url_idempotent (resp resp2 : String → List String)
    (h : Hass) (url : String) :
    (dictGet h.data (dataName url) = none →
      (from_url resp h url).2 = update_info resp (initDevice url) ∧
      dictGet (from_url resp h url).1.data (dataName url)
        = some (from_url resp h url).2) ∧
    (∀ dev, dictGet h.data (dataName url) = some dev →
      from_url resp h url = (h, dev)) ∧
    from_url resp2 (from_url resp h url).1 url
      = ((from_url resp h url).1, (from_url resp h url).2) := by
  refine ⟨?_, ?_, ?_⟩
  · intro hnone
    simp [from_url, hnone, dictGet_dictSet]
  · intro dev hdev
    simp [from_url, hdev]
  · rcases hlook : dictGet h.data (dataName url) with _ | dev
    · simp [from_url, hlook, dictGet_dictSet]
    · simp [from_url, hlook]

/-- Claim C4: every `update_info` call merges the common-info and
stream-info responses into the attribute mapping; while `motion_info_url`
is unset it probes `'{}/config/motion.cgi'` then `'{}/motion.cgi'` in
that order, commits the first suffix whose response parses to a non-empty
mapping (merging its entries), sets `motion_info_url` to `'disabled'`
when both parse empty, and on later calls polls only the committed URL;
once `'disabled'`, motion endpoints are never polled again (the result
depends only on the common-info and stream-info responses). -/
theorem c4_update_info (resp : String → List String) (d : Device) :
    (d.motion_info_url = none →
      (nipcaParse (resp "{}/config/motion.cgi") ≠ [] →
        update_info resp d =
          { d with
              attributes := dictUpdate (baseAttrs resp d)
                (nipcaParse (resp "{}/config/motion.cgi")),
              motion_info_url := some "{}/config/motion.cgi" }) ∧
      (nipcaParse (resp "{}/config/motion.cgi") = [] →
        nipcaParse (resp "{}/motion.cgi") ≠ [] →
        update_info resp d =
          { d with
              attributes := dictUpdate (baseAttrs resp d)
                (nipcaParse (resp "{}/motion.cgi")),
              motion_info_url := some "{}/motion.cgi" }) ∧
      (nipcaParse (resp "{}/config/motion.cgi") = [] →
        nipcaParse (resp "{}/motion.cgi") = [] →
        update_info resp d =
          { d with attributes := baseAttrs resp d,
                   motion_info_url := some "disabled" })) ∧
    (∀ u, d.motion_info_url = some u → u ≠ "disabled" →
      update_info resp d =
        { d with
            attributes := dictUpdate (baseAttrs resp d) (nipcaParse (resp u)) }) ∧
    (d.motion_info_url = some "disabled" →
      update_info resp d = { d with attributes := baseAttrs resp d } ∧
      ∀ resp2 : String → List String,
        resp2 COMMON_INFO = resp COMMON_INFO →
        resp2 STREAM_INFO = resp STREAM_INFO →
        update_info resp2 d = update_info resp d) := by
  refine ⟨?_, ?_, ?_⟩
  · intro hnone
    refine ⟨?_, ?_, ?_⟩
    · intro hm1
      simp [update_info, hnone, probeMotion, MOTION_INFO, hm1, baseAttrs]
    · intro hm1 hm2
      simp [update_info, hnone, probeMotion, MOTION_INFO, hm1, hm2, baseAttrs]
    · intro hm1 hm2
      simp [update_info, hnone, probeMotion, MOTION_INFO, hm1, hm2, baseAttrs]
  · intro u hu hne
    simp [update_info, hu, hne, baseAttrs]
  · intro hdis
    constructor
    · simp [update_info, hdis, baseAttrs]
    · intro rsp2 hc hs
      simp [update_info, hdis, baseAttrs, hc, hs]

/-- Claim C10: `motion_detection_enabled` is true exactly when the
attribute mapping maps `'enable'` to the string `'yes'` or
`'motiondetectionenable'` to the string `'1'`; in every other state,
including when both keys are absent, it is false. -/
theorem c10_motion_detection_enabled (d : Device) :
    motion_detection_enabled d = true ↔
      (dictGet d.attributes "enable" = some "yes" ∨
       dictGet d.attributes "motiondetectionenable" = some "1") := by
  unfold motion_detection_enabled
  by_cases h1 : dictGet d.attributes "enable" = some "yes"
  · simp [h1]
  · by_cases h2 : dictGet d.attributes "motiondetectionenable" = some "1" <;>
      simp [h1, h2]

/-! ### Notify-loop lemmas -/

theorem countFrom_cons (c : Nat) (b : Bool) (l : List Bool) :
    countFrom c (b :: l) = countFrom (stepCount b c) l := rfl

theorem trailingRun_concat (l : List Bool) (b : Bool) :
    trailingRun (l ++ [b]) = if b then trailingRun l + 1 else 0 := by
  cases b <;> simp [trailingRun, List.reverse_append]

theorem countFrom_eq (c : Nat) (l : List Bool) :
    countFrom c l =
      if l.all (fun b => b) then c + l.length else trailingRun l := by
  induction l using List.reverseRecOn with
  | nil => simp [countFrom, trailingRun]
  | append_singleton l b ih =>
    have hfold : countFrom c (l ++ [b]) = stepCount b (countFrom c l) := by
      simp [countFrom, List.foldl_append]
    rw [hfold, trailingRun_concat]
    cases b with
    | false =>
      simp [stepCount]
    | true =>
      rw [ih]
      by_cases hall : l.all (fun x => x) = true
      · simp [stepCount, hall]
        omega
      · simp only [List.all_append, List.all_cons, List.all_nil, Bool.and_true,
          hall, Bool.false_and, Bool.and_self]
        simp [stepCount, hall]

theorem trailingRun_of_all (l : List Bool) (h : l.all (fun b => b) = true) :
    trailingRun l = l.length := by
  induction l using List.reverseRecOn with
  | nil => rfl
  | append_singleton l b ih =>
    simp only [List.all_append, List.all_cons, List.all_nil, Bool.and_true,
      Bool.and_eq_true] at h
    rcases h with ⟨h1, h2⟩
    subst h2
    rw [trailingRun_concat, if_pos rfl, ih h1]
    simp

theorem countFrom_zero (l : List Bool) : countFrom 0 l = trailingRun l := by
  rw [countFrom_eq]
  by_cases h : l.all (fun b => b) = true
  · rw [if_pos h, trailingRun_of_all l h, Nat.zero_add]
  · rw [if_neg h]

/-- The loop exits with `n` iterations executed exactly when `n` is the
first point at which the counter has reached `cycles`. -/
theorem notifyLoop_spec (cycles : ℚ) (c : Nat) (obs : List Bool) (n : Nat) :
    notifyLoop cycles c obs = some n ↔
      (n ≤ obs.length ∧ cycles ≤ (countFrom c (obs.take n) : ℚ) ∧
       ∀ m, m < n → ¬ cycles ≤ (countFrom c (obs.take m) : ℚ)) := by
  induction obs generalizing c n with
  | nil =>
    constructor
    · intro hsome
      simp only [notifyLoop] at hsome
      by_cases hc : cycles ≤ (c : ℚ)
      · rw [if_pos hc] at hsome
        obtain rfl : (0 : Nat) = n := Option.some.inj hsome
        exact ⟨Nat.le_refl 0, by simpa [countFrom] using hc,
          fun m hm => absurd hm (Nat.not_lt_zero m)⟩
      · rw [if_neg hc] at hsome
        exact absurd hsome (by simp)
    · rintro ⟨hn, hcyc, _⟩
      obtain rfl : n = 0 := Nat.le_zero.mp (by simpa using hn)
      simp only [List.take_nil, countFrom, List.foldl_nil] at hcyc
      simp [notifyLoop, hcyc]
  | cons b rest ih =>
    by_cases hc : cycles ≤ (c : ℚ)
    · simp only [notifyLoop, if_pos hc]
      constructor
      · intro hsome
        obtain rfl : (0 : Nat) = n := Option.some.inj hsome
        exact ⟨Nat.zero_le _, by simpa [countFrom] using hc,
          fun m hm => absurd hm (Nat.not_lt_zero m)⟩
      · rintro ⟨hn, hcyc, hmin⟩
        rcases Nat.eq_zero_or_pos n with rfl | hpos
        · rfl
        · have hcontra := hmin 0 hpos
          simp only [List.take_zero, countFrom, List.foldl_nil] at hcontra
          exact absurd hc hcontra
    · simp only [notifyLoop, if_neg hc]
      constructor
      · intro hsome
        rcases hmap : notifyLoop cycles (stepCount b c) rest with _ | m
        · rw [hmap] at hsome
          exact absurd hsome (by simp)
        · rw [hmap] at hsome
          simp only [Option.map_some'] at hsome
          obtain rfl : m + 1 = n := Option.some.inj hsome
          obtain ⟨h1, h2, h3⟩ := (ih (stepCount b c) m).mp hmap
          refine ⟨by simpa using Nat.succ_le_succ h1, ?_, ?_⟩
          · simpa [List.take_succ_cons, countFrom_cons] using h2
          · intro j hj
            rcases j with _ | j2
            · intro habs
              simp only [List.take_zero, countFrom, List.foldl_nil] at habs
              exact hc habs
            · have hlt : j2 < m := by omega
              have := h3 j2 hlt
              simpa [List.take_succ_cons, countFrom_cons] using this
      · rintro ⟨hn, hcyc, hmin⟩
        rcases n with _ | m
        · exfalso
          simp only [List.take_zero, countFrom, List.foldl_nil] at hcyc
          exact hc hcyc
        · have hm : notifyLoop cycles (stepCount b c) rest = some m := by
            apply (ih (stepCount b c) m).mpr
            refine ⟨by simpa using hn, ?_, ?_⟩
            · simpa [List.take_succ_cons, countFrom_cons] using hcyc
            · intro j hj
              have := hmin (j + 1) (by omega)
              simpa [List.take_succ_cons, countFrom_cons] using this
          rw [hm]
          rfl

/-- Claim C9: modelling each outer iteration's buffer state as an input,
the `_notify_listener` loop exits (whereupon the generator finishes, so
the following advance raises `StopAsyncIteration`) after `n` iterations
exactly when `n` is the first point at which the count of consecutive
most-recent iterations that observed an empty buffer has reached
`30 / update_interval_seconds`; an iteration with a non-empty buffer
resets that count to zero (the trailing empty run restarts). -/
theorem c9_notify_loop_exit (intervalSeconds : ℚ) (obs : List Bool) (n : Nat) :
    notifyLoop (cyclesFor intervalSeconds) 0 obs = some n ↔
      (n ≤ obs.length ∧
       cyclesFor intervalSeconds ≤ (trailingRun (obs.take n) : ℚ) ∧
       ∀ m, m < n →
         ¬ cyclesFor intervalSeconds ≤ (trailingRun (obs.take m) : ℚ)) := by
  have h := notifyLoop_spec (cyclesFor intervalSeconds) 0 obs n
  simpa [countFrom_zero] using h

end Nipca
